import Mathlib

/-!
Verification of the Sparkify ETL pipeline (src/etl.py and src/sql_queries.py).

The pipeline is embedded shallowly:

* The five Postgres tables are lists of row structures; `songplay_id serial`
  is represented implicitly by list position (duplicate inserts yield
  duplicate list entries, as the serial key makes every inserted row
  distinct).
* All values travel as their canonical textual form, mirroring the source,
  which stringifies every parameter (`[str(col) for col in ...]`) before
  executing an INSERT.  Fields that are already strings pass through
  the Python `str` unchanged, so record fields are modelled as `String`
  directly; the one place `str` acts on a non-string is `str(None)`,
  which yields the literal `"None"` and is modelled by `pyStrOpt`.
* Nullable columns are `Option String` (`none` is SQL NULL).  Postgres
  float columns canonicalise the spelling of NaN on input and satisfy
  `NaN = NaN`; this is modelled by `pgFloatStore`, which maps every NaN
  spelling accepted by Postgres to the canonical `"NaN"`.
* Each `cur.execute` of a write statement is an `exec` step that records
  the issued statement in an operation trace and applies its effect to
  the database state; a statement that fails (the plain INSERT into
  `songplays` hitting its UNIQUE constraint) aborts via `Except.error`.
* The transaction semantics of `get_connection` (commit on success,
  rollback then close on an exception) are modelled both as an event
  trace and, for a whole invocation of `main`, by `runMain`, which
  returns the initial state when the body fails.
-/

/-- Errors a statement execution can raise: the UNIQUE-constraint
violation on the plain `songplays` INSERT, and the KeyError raised by
`df.loc[0, ...]` when a song file holds no record. -/
inductive EtlError where
  | uniqueViolation
  | emptyFile
deriving DecidableEq, Repr

/-- Postgres float-column input canonicalisation: every accepted spelling
of NaN is stored as the single NaN value (Postgres treats `NaN = NaN` as
true, so the canonical string `"NaN"` models it faithfully for the
equality comparisons the pipeline performs).  Other inputs are kept as
their textual form; the pipeline never compares two distinct spellings
of the same finite number. -/
def pgFloatStore (s : String) : String :=
  if s == "nan" || s == "NaN" || s == "NAN" then "NaN" else s

/-- Result of the Python str function on an optional value: str of None
is the literal string "None". -/
def pyStrOpt (v : Option String) : String :=
  match v with
  | none => "None"
  | some s => s

/-- Row of the `songs` table (src/sql_queries.py, song_table_create). -/
structure SongRow where
  song_id : String
  title : String
  artist_id : String
  year : String
  duration : String
deriving DecidableEq, Repr

/-- Row of the `artists` table (src/sql_queries.py, artist_table_create);
location, latitude and longitude are nullable. -/
structure ArtistRow where
  artist_id : String
  name : String
  location : Option String
  latitude : Option String
  longitude : Option String
deriving DecidableEq, Repr

/-- Row of the `time` table (src/sql_queries.py, time_table_create). -/
structure TimeRow where
  start_time : String
  hour : String
  day : String
  week : String
  month : String
  year : String
  weekday : String
deriving DecidableEq, Repr

/-- Row of the `users` table (src/sql_queries.py, user_table_create). -/
structure UserRow where
  user_id : String
  first_name : String
  last_name : String
  gender : String
  level : String
deriving DecidableEq, Repr

/-- Row of the `songplays` table (src/sql_queries.py,
songplay_table_create); song_id and artist_id are nullable. -/
structure SongplayRow where
  start_time : String
  user_id : String
  level : String
  song_id : Option String
  artist_id : Option String
  session_id : String
  location : String
  user_agent : String
deriving DecidableEq, Repr

/-- The five tables of the sparkifydb store. -/
structure DB where
  songs : List SongRow
  artists : List ArtistRow
  time : List TimeRow
  users : List UserRow
  songplays : List SongplayRow
deriving DecidableEq, Repr

/-- The empty store, as left by create_tables. -/
def emptyDB : DB := ⟨[], [], [], [], []⟩

/-- Effect of song_table_insert: INSERT ... ON CONFLICT (song_id) DO
NOTHING (src/sql_queries.py lines 90-95). -/
def applySongInsert (t : List SongRow) (r : SongRow) : List SongRow :=
  if t.any (fun s => s.song_id == r.song_id) then t else t ++ [r]

/-- Effect of artist_table_insert: INSERT ... ON CONFLICT (artist_id) DO
NOTHING (src/sql_queries.py lines 97-102). -/
def applyArtistInsert (t : List ArtistRow) (r : ArtistRow) : List ArtistRow :=
  if t.any (fun a => a.artist_id == r.artist_id) then t else t ++ [r]

/-- Effect of time_table_insert: INSERT ... ON CONFLICT (start_time) DO
NOTHING (src/sql_queries.py lines 105-110). -/
def applyTimeInsert (t : List TimeRow) (r : TimeRow) : List TimeRow :=
  if t.any (fun x => x.start_time == r.start_time) then t else t ++ [r]

/-- Effect of user_table_insert: INSERT ... ON CONFLICT (user_id) DO
UPDATE SET level=EXCLUDED.level (src/sql_queries.py lines 83-88). -/
def applyUserUpsert (t : List UserRow) (r : UserRow) : List UserRow :=
  if t.any (fun u => u.user_id == r.user_id) then
    t.map (fun u => if u.user_id == r.user_id then
      ⟨u.user_id, u.first_name, u.last_name, u.gender, r.level⟩ else u)
  else t ++ [r]

/-- The UNIQUE (start_time, user_id, song_id) constraint of `songplays`:
a new row conflicts with an existing one only when all three columns are
equal and song_id is non-NULL on both sides (Postgres unique indexes
treat NULLs as distinct). -/
def songplayConflicts (t : List SongplayRow) (r : SongplayRow) : Bool :=
  t.any (fun q => q.start_time == r.start_time && q.user_id == r.user_id &&
    (match q.song_id, r.song_id with
     | some a, some b => a == b
     | _, _ => false))

/-- Effect of songplay_table_insert: a plain INSERT with no ON CONFLICT
clause (src/sql_queries.py lines 77-81); it raises on a UNIQUE-constraint
violation. -/
def applySongplayInsert (t : List SongplayRow) (r : SongplayRow) :
    Except EtlError (List SongplayRow) :=
  if songplayConflicts t r then Except.error EtlError.uniqueViolation
  else Except.ok (t ++ [r])

/-- Effect of the three artists UPDATE statements of the post-load
cleanup block executed at the end of main (src/etl.py lines 161-163) on
one row: location is nulled on the empty string, "NULL" and "NaN";
latitude and longitude on "NaN". -/
def cleanArtist (a : ArtistRow) : ArtistRow :=
  ⟨a.artist_id, a.name,
   if a.location == some "" || a.location == some "NULL" ||
      a.location == some "NaN" then none else a.location,
   if a.latitude == some "NaN" then none else a.latitude,
   if a.longitude == some "NaN" then none else a.longitude⟩

/-- Effect of the two songplays UPDATE statements of the cleanup block
(src/etl.py lines 164-165) on one row. -/
def cleanSongplay (p : SongplayRow) : SongplayRow :=
  ⟨p.start_time, p.user_id, p.level,
   if p.song_id == some "None" then none else p.song_id,
   if p.artist_id == some "None" then none else p.artist_id,
   p.session_id, p.location, p.user_agent⟩

/-- Effect of the whole post-load cleanup block on the store. -/
def cleanupDB (db : DB) : DB :=
  ⟨db.songs, db.artists.map cleanArtist, db.time, db.users,
   db.songplays.map cleanSongplay⟩

/-- One write statement issued through the cursor. -/
inductive WriteOp where
  | songInsert (r : SongRow)
  | artistInsert (r : ArtistRow)
  | timeInsert (r : TimeRow)
  | userUpsert (r : UserRow)
  | songplayInsert (r : SongplayRow)
  | cleanup
deriving DecidableEq, Repr

/-- Apply one write statement to the store. -/
def applyWrite (db : DB) : WriteOp → Except EtlError DB
  | WriteOp.songInsert r =>
      Except.ok ⟨applySongInsert db.songs r, db.artists, db.time, db.users, db.songplays⟩
  | WriteOp.artistInsert r =>
      Except.ok ⟨db.songs, applyArtistInsert db.artists r, db.time, db.users, db.songplays⟩
  | WriteOp.timeInsert r =>
      Except.ok ⟨db.songs, db.artists, applyTimeInsert db.time r, db.users, db.songplays⟩
  | WriteOp.userUpsert r =>
      Except.ok ⟨db.songs, db.artists, db.time, applyUserUpsert db.users r, db.songplays⟩
  | WriteOp.songplayInsert r =>
      (applySongplayInsert db.songplays r).map
        (fun t => ⟨db.songs, db.artists, db.time, db.users, t⟩)
  | WriteOp.cleanup => Except.ok (cleanupDB db)

/-- A connected cursor: the store state reached so far, together with the
trace of write statements issued in this transaction. -/
structure Cur where
  db : DB
  ops : List WriteOp
deriving DecidableEq, Repr

/-- Execute one write statement: record it in the trace and apply its
effect; a raising statement propagates the error. -/
def exec (c : Cur) (w : WriteOp) : Except EtlError Cur :=
  (applyWrite c.db w).map (fun db => ⟨db, c.ops ++ [w]⟩)

/-- Proleptic-Gregorian conversion from days since 1970-01-01 to
(year, month, day), the calendar arithmetic the pandas `datetime64`
accessors expose; stated for non-negative day counts, which covers every
epoch-millisecond timestamp the log data carries. -/
def civilFromDays (z0 : Nat) : Nat × Nat × Nat :=
  let z := z0 + 719468
  let era := z / 146097
  let doe := z % 146097
  let yoe := (doe - doe / 1460 + doe / 36524 - doe / 146096) / 365
  let y := yoe + era * 400
  let doy := doe - (365 * yoe + yoe / 4 - yoe / 100)
  let mp := (5 * doy + 2) / 153
  let d := doy - (153 * mp + 2) / 5 + 1
  let m := if mp < 10 then mp + 3 else mp - 9
  (if m ≤ 2 then y + 1 else y, m, d)

/-- Gregorian leap-year test. -/
def isLeap (y : Nat) : Bool :=
  (y % 4 == 0 && y % 100 != 0) || y % 400 == 0

/-- Ordinal day of the year (1-based) of a civil date. -/
def dayOfYear (y m d : Nat) : Nat :=
  let cum := [0, 31, 59, 90, 120, 151, 181, 212, 243, 273, 304, 334]
  cum.getD (m - 1) 0 + d + (if 2 < m && isLeap y then 1 else 0)

/-- Number of ISO weeks in an ISO year (52 or 53). -/
def weeksInIsoYear (y : Nat) : Nat :=
  let p := fun (yy : Nat) => (yy + yy / 4 - yy / 100 + yy / 400) % 7
  if p y == 4 || p (y - 1) == 3 then 53 else 52

/-- ISO-8601 week number of a date given its year, ordinal day and
ISO weekday (Monday = 1 .. Sunday = 7); this is the `week` value the
pandas dt accessor produces. -/
def isoWeek (y ord wd : Nat) : Nat :=
  let w := (ord + 10 - wd) / 7
  if w < 1 then weeksInIsoYear (y - 1)
  else if weeksInIsoYear y < w then 1
  else w

/-- Two-digit zero padding. -/
def pad2 (n : Nat) : String :=
  if n < 10 then "0" ++ toString n else toString n

/-- Four-digit zero padding. -/
def pad4 (n : Nat) : String :=
  if n < 10 then "000" ++ toString n
  else if n < 100 then "00" ++ toString n
  else if n < 1000 then "0" ++ toString n
  else toString n

/-- The start_time string the pipeline sends to the store: the format
%Y-%m-%d %H:%M:%S applied to the millisecond-resolution timestamp
(src/etl.py lines 95 and 122).  The format has no sub-second field, so
only ts / 1000 whole seconds enter the output. -/
def fmtTs (ts : Nat) : String :=
  let s := ts / 1000
  let ymd := civilFromDays (s / 86400)
  pad4 ymd.1 ++ "-" ++ pad2 ymd.2.1 ++ "-" ++ pad2 ymd.2.2 ++ " " ++
    pad2 (s % 86400 / 3600) ++ ":" ++ pad2 (s % 86400 % 3600 / 60) ++ ":" ++
    pad2 (s % 60)

/-- The seven time_vals of process_log_file (src/etl.py lines 85-104):
formatted timestamp, hour, day of month, ISO week, month, year and
Monday-0 weekday, each passed through str.  Day 0 of the epoch was a
Thursday, hence the +3 shift for the weekday. -/
def timeRowOf (ts : Nat) : TimeRow :=
  let s := ts / 1000
  let days := s / 86400
  let ymd := civilFromDays days
  ⟨fmtTs ts,
   toString (s % 86400 / 3600),
   toString ymd.2.2,
   toString (isoWeek ymd.1 (dayOfYear ymd.1 ymd.2.1 ymd.2.2) ((days + 3) % 7 + 1)),
   toString ymd.2.1,
   toString ymd.1,
   toString ((days + 3) % 7)⟩

/-- One record of a song file, with every JSON scalar carried in its
canonical textual form (the pipeline stringifies all of them before the
INSERT, so nothing else about the scalar is ever observed). -/
structure SongRecord where
  song_id : String
  title : String
  artist_id : String
  year : String
  duration : String
  artist_name : String
  artist_location : String
  artist_latitude : String
  artist_longitude : String
deriving DecidableEq, Repr

/-- The song_data tuple of process_song_file (src/etl.py line 58),
as stored into the songs table (duration lands in a float column). -/
def songRowOf (r : SongRecord) : SongRow :=
  ⟨r.song_id, r.title, r.artist_id, r.year, pgFloatStore r.duration⟩

/-- The artist_data tuple of process_song_file (src/etl.py lines 63-67),
as stored into the artists table (latitude and longitude land in float
columns). -/
def artistRowOf (r : SongRecord) : ArtistRow :=
  ⟨r.artist_id, r.artist_name, some r.artist_location,
   some (pgFloatStore r.artist_latitude), some (pgFloatStore r.artist_longitude)⟩

/-- Embedding of process_song_file (src/etl.py lines 47-68): the frame
row at index 0 is projected into song_data and artist_data and the two
inserts are executed; `df.loc` raises on an empty file.  Every record
after the first is never read. -/
def process_song_file (c : Cur) (recs : List SongRecord) : Except EtlError Cur :=
  match recs.head? with
  | none => Except.error EtlError.emptyFile
  | some r => do
      let c1 ← exec c (WriteOp.songInsert (songRowOf r))
      exec c1 (WriteOp.artistInsert (artistRowOf r))

/-- One record of a log file; ts is the epoch-millisecond timestamp and
the remaining JSON scalars are carried in canonical textual form. -/
structure LogRecord where
  page : String
  ts : Nat
  userId : String
  firstName : String
  lastName : String
  gender : String
  level : String
  song : String
  artist : String
  length : String
  sessionId : String
  location : String
  userAgent : String
deriving DecidableEq, Repr

/-- The user_vals tuple of process_log_file (src/etl.py line 106). -/
def userRowOf (r : LogRecord) : UserRow :=
  ⟨r.userId, r.firstName, r.lastName, r.gender, r.level⟩

/-- One joined row of the song_select query for a given songs row: the
artists row joined on artist_id (the artists primary key makes at most
one row join), kept when title, artist name and duration all match
exactly. -/
def selectJoinRow (db : DB) (title name length : String) (s : SongRow) :
    Option (String × String) :=
  match db.artists.find? (fun a => a.artist_id == s.artist_id) with
  | some a =>
      if s.title == title && a.name == name && s.duration == pgFloatStore length
      then some (s.song_id, a.artist_id) else none
  | none => none

/-- Embedding of the song_select query (src/sql_queries.py lines
114-121): songs INNER JOIN artists on artist_id, filtered on exact
equality of title, artist name and duration; `cur.fetchone()` takes the
first joined row or none. -/
def song_select (db : DB) (title name length : String) : Option (String × String) :=
  (db.songs.filterMap (selectJoinRow db title name length)).head?

/-- The songplays tuple of process_log_file (src/etl.py lines 119-131):
the second-resolution timestamp string and the str images of the
remaining fields; an unresolved song or artist id is None, which str
renders as the literal string "None" (never SQL NULL at insert time). -/
def songplayRowOf (r : LogRecord) (res : Option (String × String)) : SongplayRow :=
  ⟨fmtTs r.ts, r.userId, r.level,
   some (pyStrOpt (res.map (fun p => p.1))),
   some (pyStrOpt (res.map (fun p => p.2))),
   r.sessionId, r.location, r.userAgent⟩

/-- Body of the per-row loop of process_log_file (src/etl.py lines
93-131): time insert, user upsert, song_select lookup, songplay
insert. -/
def process_log_record (c : Cur) (r : LogRecord) : Except EtlError Cur := do
  let c1 ← exec c (WriteOp.timeInsert (timeRowOf r.ts))
  let c2 ← exec c1 (WriteOp.userUpsert (userRowOf r))
  let res := song_select c2.db r.song r.artist r.length
  exec c2 (WriteOp.songplayInsert (songplayRowOf r res))

/-- Embedding of process_log_file (src/etl.py lines 71-131): the frame
is filtered to page == "NextSong" and every surviving row is processed
in file order. -/
def process_log_file (c : Cur) (recs : List LogRecord) : Except EtlError Cur :=
  (recs.filter (fun r => r.page == "NextSong")).foldlM process_log_record c

/-- A fixed input dataset: the parsed contents of the song files and of
the log files, in the traversal order process_data enumerates them. -/
structure Dataset where
  songFiles : List (List SongRecord)
  logFiles : List (List LogRecord)
deriving DecidableEq, Repr

/-- Embedding of main (src/etl.py lines 155-167) inside the connection:
process every song file, then every log file, then execute the post-load
cleanup block. -/
def mainBody (ds : Dataset) (c : Cur) : Except EtlError Cur := do
  let c1 ← ds.songFiles.foldlM process_song_file c
  let c2 ← ds.logFiles.foldlM process_log_file c1
  exec c2 WriteOp.cleanup

/-- One invocation of main under the get_connection transaction
semantics: on success the reached state is committed; on an exception
the rollback restores the state the run started from (the commit in the
finally block then commits an empty transaction).  The Bool records
whether the run completed without an exception. -/
def runMain (ds : Dataset) (db : DB) : DB × Bool :=
  match mainBody ds ⟨db, []⟩ with
  | Except.ok c => (c.db, true)
  | Except.error _ => (db, false)

/-- Calls get_connection makes on the underlying psycopg2 connection
after the yield. -/
inductive ConnEvent where
  | rollback
  | commit
  | close
deriving DecidableEq, Repr

/-- Embedding of get_connection (src/etl.py lines 13-29).  The with
block body either returns normally (bodyFails = false) or raises
(bodyFails = true).  On a raise, the except clause runs rollback and
re-raises, then the finally clause runs commit and close; on a normal
return only the finally clause runs.  Returns the trace of connection
calls and whether the exception propagates to the caller. -/
def get_connection_run (bodyFails : Bool) : List ConnEvent × Bool :=
  if bodyFails then ([ConnEvent.rollback, ConnEvent.commit, ConnEvent.close], true)
  else ([ConnEvent.commit, ConnEvent.close], false)

/-- Observable state of the psycopg2 connection: the last committed
store state, the pending in-transaction state, and whether the
connection is still open.  rollback discards the pending work, commit
publishes it, close only closes. -/
structure ConnState where
  committed : DB
  pending : DB
  isOpen : Bool
deriving DecidableEq, Repr

/-- Effect of one connection call. -/
def applyConnEvent (s : ConnState) : ConnEvent → ConnState
  | ConnEvent.rollback => ⟨s.committed, s.committed, s.isOpen⟩
  | ConnEvent.commit => ⟨s.pending, s.pending, s.isOpen⟩
  | ConnEvent.close => ⟨s.committed, s.pending, false⟩

/-- Error carrier for file enumeration outcomes: the FileSystemError the
specification names. -/
inductive FsError where
  | fileSystemError
deriving DecidableEq, Repr

/-- A directory tree: the file names in this directory and its
subdirectories. -/
inductive FSTree where
  | node (files : List String) (subs : List FSTree)
deriving Repr

mutual

/-- Top-down traversal of one directory tree, yielding the file list of
every directory, as os.walk does. -/
def walkDir : FSTree → List (List String)
  | FSTree.node files subs => files :: walkSubs subs

/-- Traversal of a list of subdirectories. -/
def walkSubs : List FSTree → List (List String)
  | [] => []
  | t :: ts => walkDir t ++ walkSubs ts

end

/-- Modelled Python library semantics: os.walk is called with its
default onerror=None, which silently swallows the OSError raised when
the root path is missing or unreadable, so the walk of such a root
yields no directories at all (src/etl.py line 41); a missing root is
`none` here. -/
def osWalk (root : Option FSTree) : List (List String) :=
  match root with
  | none => []
  | some t => walkDir t

/-- Whether a file name matches the glob pattern *.json: its last five
characters are the .json suffix. -/
def isJsonName (f : String) : Bool :=
  f.data.reverse.take 5 == ".json".data.reverse

/-- Embedding of get_files (src/etl.py lines 32-44): walk the root and
glob the files matching *.json in every visited directory.  The Except
carrier records whether the call raises; the source has no raising
path. -/
def get_files (root : Option FSTree) : Except FsError (List String) :=
  Except.ok ((osWalk root).flatMap (fun files => files.filter isJsonName))

/-- Per-row guarantee of the artists cleanup statements: after cleanup
no artists row carries the sentinels its statements target. -/
theorem cleanArtist_spec (a : ArtistRow) :
    (cleanArtist a).location ≠ some "" ∧ (cleanArtist a).location ≠ some "NULL" ∧
    (cleanArtist a).location ≠ some "NaN" ∧ (cleanArtist a).latitude ≠ some "NaN" ∧
    (cleanArtist a).longitude ≠ some "NaN" := by
  unfold cleanArtist
  refine ⟨?_, ?_, ?_, ?_, ?_⟩ <;> dsimp only <;> split <;> simp_all

/-- Per-row guarantee of the songplays cleanup statements. -/
theorem cleanSongplay_spec (p : SongplayRow) :
    (cleanSongplay p).song_id ≠ some "None" ∧
    (cleanSongplay p).artist_id ≠ some "None" := by
  unfold cleanSongplay
  refine ⟨?_, ?_⟩ <;> dsimp only <;> split <;> simp_all

/-- Log record for the rerun analysis: one NextSong event whose song is
not in the (empty) catalog. -/
def c1Rec : LogRecord :=
  ⟨"NextSong", 0, "1", "F", "L", "M", "free", "S", "A", "1", "9", "Loc", "UA"⟩

/-- Dataset for the rerun analysis: no song files, one log file with the
single event above. -/
def c1Data : Dataset := ⟨[], [[c1Rec]]⟩

/-- C1: the claim states that running main twice over the same dataset
leaves all five tables equal to the state after one run.  The code does
not satisfy this: on the dataset above both runs succeed, yet the second
run inserts the songplays fact row again — the cleanup of the first run
rewrote its song_id to NULL, and NULL never conflicts under the UNIQUE
(start_time, user_id, song_id) constraint, so the rerun is not blocked.
After two runs songplays holds two rows; after one run it holds one. -/
theorem c1_pipeline_rerun_duplicates_facts :
    (runMain c1Data emptyDB).2 = true ∧
    (runMain c1Data (runMain c1Data emptyDB).1).2 = true ∧
    ((runMain c1Data emptyDB).1).songplays.length = 1 ∧
    ((runMain c1Data (runMain c1Data emptyDB).1).1).songplays.length = 2 ∧
    (runMain c1Data (runMain c1Data emptyDB).1).1 ≠ (runMain c1Data emptyDB).1 := by
  decide

/-- C2 counterexample: on the exception path get_connection performs
both a rollback (in the except clause) and a commit (in the finally
clause), so it does not perform exactly one of the two finalisers on
every exit path. -/
theorem c2_counterexample_two_finalizers :
    ¬ ((get_connection_run true).1.count ConnEvent.commit +
       (get_connection_run true).1.count ConnEvent.rollback = 1) := by
  decide

/-- C2 amended: on normal exit get_connection commits then closes; on an
exception it rolls back, then the finally clause additionally commits
the then-empty transaction and closes, and the exception propagates.
The extra commit is effect-free: the store state the caller observes is
the pending state on success and the initial committed state on failure,
and the connection is closed on both paths. -/
theorem c2_scoped_connection_finalization (base pending : DB) :
    (get_connection_run false).1 = [ConnEvent.commit, ConnEvent.close] ∧
    (get_connection_run true).1 =
      [ConnEvent.rollback, ConnEvent.commit, ConnEvent.close] ∧
    (get_connection_run false).2 = false ∧
    (get_connection_run true).2 = true ∧
    (get_connection_run false).1.foldl applyConnEvent ⟨base, pending, true⟩ =
      ⟨pending, pending, false⟩ ∧
    (get_connection_run true).1.foldl applyConnEvent ⟨base, pending, true⟩ =
      ⟨base, base, false⟩ ∧
    (get_connection_run false).1.count ConnEvent.close = 1 ∧
    (get_connection_run true).1.count ConnEvent.close = 1 := by
  refine ⟨rfl, rfl, rfl, rfl, rfl, rfl, rfl, rfl⟩

/-- First log record of the sub-second analysis: epoch millisecond 1000. -/
def c3RecA : LogRecord :=
  ⟨"NextSong", 1000, "1", "F", "L", "M", "free", "S", "A", "1", "9", "Loc", "UA"⟩

/-- Second log record of the sub-second analysis: epoch millisecond 1500,
the same civil second as the first record, from a different user so that
the songplays UNIQUE constraint is not involved. -/
def c3RecB : LogRecord :=
  ⟨"NextSong", 1500, "2", "G", "M", "F", "paid", "S2", "A2", "2", "8", "Loc", "UA"⟩

/-- Dataset of the sub-second analysis: one log file with the two events
above, whose ts values differ only in the millisecond part. -/
def c3Data : Dataset := ⟨[], [[c3RecA, c3RecB]]⟩

/-- C3 counterexample: the loaded start_time is truncated to seconds,
not milliseconds — both events load the start_time string
1970-01-01 00:00:01, and the run leaves one time row, not two. -/
theorem c3_counterexample_subsecond_collapsed :
    (runMain c3Data emptyDB).2 = true ∧
    ((runMain c3Data emptyDB).1).time.length = 1 ∧
    ((runMain c3Data emptyDB).1).time = [timeRowOf 1000] ∧
    fmtTs 1000 = "1970-01-01 00:00:01" ∧ fmtTs 1500 = "1970-01-01 00:00:01" := by
  decide

/-- C3 amended: the start_time loaded into the time table and into the
songplays row is the ts truncated to second precision (the format
%Y-%m-%d %H:%M:%S has no sub-second field), so two events whose ts
values agree on the second and differ only below it load the same
start_time, and the time table gains a single row for them. -/
theorem c3_start_time_second_truncation (r : LogRecord) (ts1 ts2 : Nat) :
    (timeRowOf r.ts).start_time = fmtTs r.ts ∧
    (songplayRowOf r (song_select emptyDB r.song r.artist r.length)).start_time =
      fmtTs r.ts ∧
    fmtTs r.ts = fmtTs (1000 * (r.ts / 1000)) ∧
    (ts1 / 1000 = ts2 / 1000 → fmtTs ts1 = fmtTs ts2) := by
  refine ⟨rfl, rfl, ?_, ?_⟩
  · unfold fmtTs
    rw [Nat.mul_div_cancel_left _ (by norm_num : (0 : Nat) < 1000)]
  · intro h
    unfold fmtTs
    rw [h]

/-- C3 witness: ts values 1000 and 1500 share the civil second, and the
loaded start_time strings coincide. -/
theorem c3_start_time_second_truncation_witness : fmtTs 1000 = fmtTs 1500 :=
  (c3_start_time_second_truncation c3RecA 1000 1500).2.2.2 (by decide)

/-- Song record whose artist_location is the literal string "None" (the
str image of a missing JSON value read as Python None). -/
def c4Song : SongRecord :=
  ⟨"S1", "T", "A1", "2000", "210.5", "N", "None", "1.0", "2.0"⟩

/-- Dataset loading the record above. -/
def c4Data : Dataset := ⟨[[c4Song]], []⟩

/-- C4 counterexample: the cleanup block does not rewrite the sentinel
"None" in artists.location — after a successful run the artists row
still carries location = "None", so not every sentinel string is
rewritten in every one of the five columns the claim names. -/
theorem c4_counterexample_location_none_survives :
    (runMain c4Data emptyDB).2 = true ∧
    ((runMain c4Data emptyDB).1).artists =
      [⟨"A1", "N", some "None", some "1.0", some "2.0"⟩] := by
  decide

/-- C4 amended: the cleanup block rewrites, per column, exactly the
sentinels its UPDATE statements name: artists.location loses the empty
string, "NULL" and "NaN" (but not "None"); artists.latitude and
artists.longitude lose "NaN"; songplays.song_id and songplays.artist_id
lose "None".  After cleanup no row carries those per-column sentinels. -/
theorem c4_cleanup_per_column_sentinels (db : DB) :
    (∀ a ∈ (cleanupDB db).artists,
        a.location ≠ some "" ∧ a.location ≠ some "NULL" ∧
        a.location ≠ some "NaN" ∧ a.latitude ≠ some "NaN" ∧
        a.longitude ≠ some "NaN") ∧
    (∀ p ∈ (cleanupDB db).songplays,
        p.song_id ≠ some "None" ∧ p.artist_id ≠ some "None") := by
  constructor
  · intro a ha
    obtain ⟨b, -, rfl⟩ := List.mem_map.mp ha
    exact cleanArtist_spec b
  · intro p hp
    obtain ⟨q, -, rfl⟩ := List.mem_map.mp hp
    exact cleanSongplay_spec q

/-- A directory that exists but contains no JSON file. -/
def c9EmptyDir : FSTree := FSTree.node ["readme.txt"] []

/-- C9 counterexample: enumeration over a missing or unreadable root
does not fail with FileSystemError — os.walk is invoked with its default
onerror=None, which swallows the listing error, so get_files yields zero
results instead of raising. -/
theorem c9_counterexample_missing_root_no_error :
    get_files none ≠ Except.error FsError.fileSystemError ∧
    get_files none = Except.ok [] := by
  refine ⟨?_, rfl⟩
  intro h
  simp [get_files] at h

/-- C9 amended: get_files never fails; a missing or unreadable root and
an existing directory with no JSON files both yield zero results. -/
theorem c9_enumeration_never_fails (root : Option FSTree) :
    (∃ l, get_files root = Except.ok l) ∧
    get_files none = Except.ok [] ∧
    get_files (some c9EmptyDir) = Except.ok [] := by
  refine ⟨⟨_, rfl⟩, rfl, ?_⟩
  show Except.ok (["readme.txt"].filter isJsonName ++ []) = Except.ok []
  rw [show ["readme.txt"].filter isJsonName = [] from by decide]
  rfl

/-- C10: process_song_file reads only the record at row index 0 — a file
with further records behaves exactly like its first record alone, and
the run issues exactly one songs insert and one artists insert, both
built from that first record. -/
theorem c10_only_first_record_loaded (c : Cur) (r : SongRecord)
    (rest : List SongRecord) :
    process_song_file c (r :: rest) = process_song_file c [r] ∧
    ∃ c2, process_song_file c (r :: rest) = Except.ok c2 ∧
      c2.ops = c.ops ++
        [WriteOp.songInsert (songRowOf r), WriteOp.artistInsert (artistRowOf r)] ∧
      c2.db = ⟨applySongInsert c.db.songs (songRowOf r),
               applyArtistInsert c.db.artists (artistRowOf r),
               c.db.time, c.db.users, c.db.songplays⟩ := by
  refine ⟨rfl, _, rfl, ?_, rfl⟩
  simp [List.append_assoc]

/-- C8: process_log_file drops every record whose page is not NextSong
before any statement is issued — processing a file equals processing its
NextSong subsequence, and a file with no NextSong record leaves the
cursor exactly as it was: no time, users or songplays statement is
issued and no row is written. -/
theorem c8_non_nextsong_emits_nothing (c : Cur) (recs : List LogRecord) :
    process_log_file c recs =
      process_log_file c (recs.filter (fun r => r.page == "NextSong")) ∧
    ((∀ r ∈ recs, r.page ≠ "NextSong") → process_log_file c recs = Except.ok c) := by
  constructor
  · unfold process_log_file
    rw [List.filter_filter]
    simp
  · intro h
    have hnil : recs.filter (fun r => r.page == "NextSong") = [] := by
      rw [List.filter_eq_nil_iff]
      intro a ha
      simp [h a ha]
    unfold process_log_file
    rw [hnil]
    rfl

/-- Log record whose page is not NextSong. -/
def c8Rec : LogRecord :=
  ⟨"Home", 0, "1", "F", "L", "M", "free", "S", "A", "1", "9", "Loc", "UA"⟩

/-- C8 witness: a log file holding only the non-NextSong record above is
processed without issuing any statement. -/
theorem c8_non_nextsong_emits_nothing_witness :
    process_log_file ⟨emptyDB, []⟩ [c8Rec] = Except.ok ⟨emptyDB, []⟩ :=
  (c8_non_nextsong_emits_nothing ⟨emptyDB, []⟩ [c8Rec]).2 (by decide)

/-- Inversion for one joined row: a produced pair comes from an artists
row that joins and matches exactly. -/
theorem selectJoinRow_eq_some (db : DB) (t n l : String) (s : SongRow)
    (p : String × String) (h : selectJoinRow db t n l s = some p) :
    ∃ a ∈ db.artists, a.artist_id = s.artist_id ∧ s.title = t ∧ a.name = n ∧
      s.duration = pgFloatStore l ∧ p = (s.song_id, a.artist_id) := by
  unfold selectJoinRow at h
  cases hf : db.artists.find? (fun a => a.artist_id == s.artist_id) with
  | none => rw [hf] at h; cases h
  | some a =>
      rw [hf] at h
      replace h :
          (if (s.title == t && a.name == n && s.duration == pgFloatStore l) = true
           then some (s.song_id, a.artist_id) else none) = some p := h
      have hmem := List.mem_of_find?_eq_some hf
      have hid : a.artist_id = s.artist_id := by
        have := List.find?_some hf
        simpa using this
      by_cases hc : (s.title == t && a.name == n && s.duration == pgFloatStore l) = true
      · rw [if_pos hc] at h
        simp only [Bool.and_eq_true, beq_iff_eq] at hc
        exact ⟨a, hmem, hid, hc.1.1, hc.1.2, hc.2, (Option.some.inj h).symm⟩
      · rw [if_neg hc] at h
        cases h

/-- If an artists row joins and matches exactly, and artist_id is a key,
then the joined row for that songs row is produced. -/
theorem selectJoinRow_of_match (db : DB) (t n l : String) (s : SongRow)
    (a : ArtistRow) (huniq : (db.artists.map (fun x => x.artist_id)).Nodup)
    (ha : a ∈ db.artists) (hid : a.artist_id = s.artist_id) (ht : s.title = t)
    (hn : a.name = n) (hd : s.duration = pgFloatStore l) :
    selectJoinRow db t n l s = some (s.song_id, a.artist_id) := by
  unfold selectJoinRow
  have hsome : (db.artists.find? (fun x => x.artist_id == s.artist_id)).isSome := by
    rw [List.find?_isSome]
    exact ⟨a, ha, by simp [hid]⟩
  obtain ⟨a2, hf⟩ := Option.isSome_iff_exists.mp hsome
  rw [hf]
  have ha2 := List.mem_of_find?_eq_some hf
  have hid2 : a2.artist_id = s.artist_id := by
    have := List.find?_some hf
    simpa using this
  have heq : a2 = a := List.inj_on_of_nodup_map huniq ha2 ha (by rw [hid2, hid])
  subst heq
  show (if (s.title == t && a2.name == n && s.duration == pgFloatStore l) = true
        then some (s.song_id, a2.artist_id) else none) = some (s.song_id, a2.artist_id)
  rw [if_pos (by simp [ht, hn, hd])]

/-- C5: reference resolution is total on its expected outcomes.  With
artist_id a key of the artists table: whenever some catalog pair matches
the event exactly on (title, artist name, duration) the lookup returns a
pair, every returned pair is the (song_id, artist_id) of an exactly
matching catalog pair, and when no pair matches the lookup returns the
null result none — the function is total, so no error is ever raised. -/
theorem c5_reference_resolution_total (db : DB) (t n l : String)
    (huniq : (db.artists.map (fun x => x.artist_id)).Nodup) :
    ((∃ s ∈ db.songs, ∃ a ∈ db.artists, a.artist_id = s.artist_id ∧
        s.title = t ∧ a.name = n ∧ s.duration = pgFloatStore l) →
      (song_select db t n l).isSome = true) ∧
    ((¬ ∃ s ∈ db.songs, ∃ a ∈ db.artists, a.artist_id = s.artist_id ∧
        s.title = t ∧ a.name = n ∧ s.duration = pgFloatStore l) →
      song_select db t n l = none) ∧
    (∀ sid aid, song_select db t n l = some (sid, aid) →
      ∃ s ∈ db.songs, ∃ a ∈ db.artists, a.artist_id = s.artist_id ∧
        s.title = t ∧ a.name = n ∧ s.duration = pgFloatStore l ∧
        sid = s.song_id ∧ aid = a.artist_id) := by
  refine ⟨?_, ?_, ?_⟩
  · rintro ⟨s, hs, a, ha, hid, ht, hn, hd⟩
    have hrow := selectJoinRow_of_match db t n l s a huniq ha hid ht hn hd
    have hmem : (s.song_id, a.artist_id) ∈
        db.songs.filterMap (selectJoinRow db t n l) :=
      List.mem_filterMap.mpr ⟨s, hs, hrow⟩
    unfold song_select
    cases hl : db.songs.filterMap (selectJoinRow db t n l) with
    | nil => rw [hl] at hmem; cases hmem
    | cons x xs => simp
  · intro hno
    unfold song_select
    cases hl : db.songs.filterMap (selectJoinRow db t n l) with
    | nil => rfl
    | cons x xs =>
        exfalso
        have hx : x ∈ db.songs.filterMap (selectJoinRow db t n l) := by
          rw [hl]; exact List.mem_cons_self x xs
        obtain ⟨s, hs, hrow⟩ := List.mem_filterMap.mp hx
        obtain ⟨a, ha, hid, ht, hn, hd, -⟩ := selectJoinRow_eq_some db t n l s x hrow
        exact hno ⟨s, hs, a, ha, hid, ht, hn, hd⟩
  · intro sid aid h
    unfold song_select at h
    have hx : (sid, aid) ∈ db.songs.filterMap (selectJoinRow db t n l) := by
      cases hl : db.songs.filterMap (selectJoinRow db t n l) with
      | nil => rw [hl] at h; cases h
      | cons x xs =>
          rw [hl] at h
          simp only [List.head?] at h
          rw [Option.some.inj h]
          exact List.mem_cons_self (sid, aid) xs
    obtain ⟨s, hs, hrow⟩ := List.mem_filterMap.mp hx
    obtain ⟨a, ha, hid, ht, hn, hd, hp⟩ := selectJoinRow_eq_some db t n l s (sid, aid) hrow
    have hsid : sid = s.song_id := congrArg Prod.fst hp
    have haid : aid = a.artist_id := congrArg Prod.snd hp
    exact ⟨s, hs, a, ha, hid, ht, hn, hd, hsid, haid⟩

/-- Catalog for the resolution witness: one song and its artist. -/
def c5Db : DB :=
  ⟨[⟨"S1", "T", "A1", "2000", "210.5"⟩], [⟨"A1", "N", none, none, none⟩], [], [], []⟩

/-- C5 witness: in the one-pair catalog the matching lookup resolves and
the non-matching lookup returns none. -/
theorem c5_reference_resolution_total_witness :
    (song_select c5Db "T" "N" "210.5").isSome = true ∧
    song_select c5Db "X" "N" "210.5" = none :=
  ⟨(c5_reference_resolution_total c5Db "T" "N" "210.5" (by decide)).1 (by decide),
   (c5_reference_resolution_total c5Db "X" "N" "210.5" (by decide)).2.1 (by decide)⟩

/-- ON CONFLICT DO NOTHING appends a songs row exactly when its key is
absent. -/
theorem applySongInsert_absent (t : List SongRow) (r : SongRow)
    (h : ∀ s ∈ t, s.song_id ≠ r.song_id) : applySongInsert t r = t ++ [r] := by
  unfold applySongInsert
  rw [if_neg]
  simp only [List.any_eq_true, beq_iff_eq, not_exists]
  intro s
  rw [not_and]
  exact h s

/-- ON CONFLICT DO NOTHING leaves the songs table unchanged when the key
is present. -/
theorem applySongInsert_present (t : List SongRow) (r : SongRow)
    (h : ∃ s ∈ t, s.song_id = r.song_id) : applySongInsert t r = t := by
  unfold applySongInsert
  rw [if_pos]
  simp only [List.any_eq_true, beq_iff_eq]
  exact h

/-- ON CONFLICT DO NOTHING appends an artists row exactly when its key
is absent. -/
theorem applyArtistInsert_absent (t : List ArtistRow) (r : ArtistRow)
    (h : ∀ a ∈ t, a.artist_id ≠ r.artist_id) : applyArtistInsert t r = t ++ [r] := by
  unfold applyArtistInsert
  rw [if_neg]
  simp only [List.any_eq_true, beq_iff_eq, not_exists]
  intro a
  rw [not_and]
  exact h a

/-- ON CONFLICT DO NOTHING leaves the artists table unchanged when the
key is present. -/
theorem applyArtistInsert_present (t : List ArtistRow) (r : ArtistRow)
    (h : ∃ a ∈ t, a.artist_id = r.artist_id) : applyArtistInsert t r = t := by
  unfold applyArtistInsert
  rw [if_pos]
  simp only [List.any_eq_true, beq_iff_eq]
  exact h

/-- C7: loading the same valid song record twice is idempotent with
first-write-wins.  Starting from a store where the ids of the record are
absent, the first load appends exactly one songs row and one artists row
built from the record; the table then holds exactly one row per id; and
a second load of the same file leaves the store state unchanged. -/
theorem c7_song_artist_load_idempotent (c : Cur) (r : SongRecord)
    (rest : List SongRecord)
    (hs : ∀ s ∈ c.db.songs, s.song_id ≠ r.song_id)
    (ha : ∀ a ∈ c.db.artists, a.artist_id ≠ r.artist_id) :
    process_song_file c (r :: rest) =
      Except.ok ⟨⟨c.db.songs ++ [songRowOf r], c.db.artists ++ [artistRowOf r],
                  c.db.time, c.db.users, c.db.songplays⟩,
                 c.ops ++ [WriteOp.songInsert (songRowOf r),
                           WriteOp.artistInsert (artistRowOf r)]⟩ ∧
    ((c.db.songs ++ [songRowOf r]).filter
        (fun s => s.song_id == r.song_id)).length = 1 ∧
    ((c.db.artists ++ [artistRowOf r]).filter
        (fun a => a.artist_id == r.artist_id)).length = 1 ∧
    ∃ c3, process_song_file
        ⟨⟨c.db.songs ++ [songRowOf r], c.db.artists ++ [artistRowOf r],
          c.db.time, c.db.users, c.db.songplays⟩,
         c.ops ++ [WriteOp.songInsert (songRowOf r),
                   WriteOp.artistInsert (artistRowOf r)]⟩ (r :: rest) =
        Except.ok c3 ∧
      c3.db = ⟨c.db.songs ++ [songRowOf r], c.db.artists ++ [artistRowOf r],
               c.db.time, c.db.users, c.db.songplays⟩ := by
  have h1 : applySongInsert c.db.songs (songRowOf r) = c.db.songs ++ [songRowOf r] :=
    applySongInsert_absent c.db.songs (songRowOf r) hs
  have h2 : applyArtistInsert c.db.artists (artistRowOf r) =
      c.db.artists ++ [artistRowOf r] :=
    applyArtistInsert_absent c.db.artists (artistRowOf r) ha
  refine ⟨?_, ?_, ?_, ?_⟩
  · calc process_song_file c (r :: rest)
        = Except.ok ⟨⟨applySongInsert c.db.songs (songRowOf r),
            applyArtistInsert c.db.artists (artistRowOf r),
            c.db.time, c.db.users, c.db.songplays⟩,
            (c.ops ++ [WriteOp.songInsert (songRowOf r)]) ++
              [WriteOp.artistInsert (artistRowOf r)]⟩ := rfl
      _ = _ := by
        rw [h1, h2, List.append_assoc]
        rfl
  · rw [List.filter_append]
    have hnil : c.db.songs.filter (fun s => s.song_id == r.song_id) = [] := by
      rw [List.filter_eq_nil_iff]
      intro s hs2
      simpa using hs s hs2
    rw [hnil]
    simp [songRowOf]
  · rw [List.filter_append]
    have hnil : c.db.artists.filter (fun a => a.artist_id == r.artist_id) = [] := by
      rw [List.filter_eq_nil_iff]
      intro a ha2
      simpa using ha a ha2
    rw [hnil]
    simp [artistRowOf]
  · refine ⟨_, rfl, ?_⟩
    show DB.mk
        (applySongInsert (c.db.songs ++ [songRowOf r]) (songRowOf r))
        (applyArtistInsert (c.db.artists ++ [artistRowOf r]) (artistRowOf r))
        c.db.time c.db.users c.db.songplays = _
    rw [applySongInsert_present _ _ ⟨songRowOf r, by simp, rfl⟩,
        applyArtistInsert_present _ _ ⟨artistRowOf r, by simp, rfl⟩]

/-- Song record for the double-load witness. -/
def c7Rec : SongRecord :=
  ⟨"S1", "T", "A1", "2000", "210.5", "N", "Loc", "1.0", "2.0"⟩

/-- C7 witness: loading the record above into the empty store appends
its songs row and artists row. -/
theorem c7_song_artist_load_idempotent_witness :
    process_song_file ⟨emptyDB, []⟩ [c7Rec] =
      Except.ok ⟨⟨[songRowOf c7Rec], [artistRowOf c7Rec], [], [], []⟩,
        [WriteOp.songInsert (songRowOf c7Rec),
         WriteOp.artistInsert (artistRowOf c7Rec)]⟩ :=
  (c7_song_artist_load_idempotent ⟨emptyDB, []⟩ c7Rec []
    (by simp [emptyDB]) (by simp [emptyDB])).1

/-- Within one NextSong row, only the user upsert touches the users
table: a successful per-row step leaves users equal to the upsert of the
incoming user_vals. -/
theorem process_log_record_users (c c2 : Cur) (r : LogRecord)
    (h : process_log_record c r = Except.ok c2) :
    c2.db.users = applyUserUpsert c.db.users (userRowOf r) := by
  unfold process_log_record exec applyWrite at h
  simp only [Except.map, bind, Except.bind, Except.instMonad] at h
  have hsel : song_select
      ⟨c.db.songs, c.db.artists, applyTimeInsert c.db.time (timeRowOf r.ts),
       applyUserUpsert c.db.users (userRowOf r), c.db.songplays⟩
      r.song r.artist r.length = song_select c.db r.song r.artist r.length := rfl
  rw [hsel] at h
  cases hsp : applySongplayInsert c.db.songplays
      (songplayRowOf r (song_select c.db r.song r.artist r.length)) with
  | error e =>
      rw [hsp] at h
      cases h
  | ok t =>
      rw [hsp] at h
      cases h
      rfl

/-- Folding the per-row step over a list of NextSong rows makes the
users table the fold of the upsert over the incoming user_vals. -/
theorem process_log_fold_users (rows : List LogRecord) :
    ∀ c c2 : Cur, List.foldlM process_log_record c rows = Except.ok c2 →
      c2.db.users = (rows.map userRowOf).foldl applyUserUpsert c.db.users := by
  induction rows with
  | nil =>
      intro c c2 h
      cases h
      rfl
  | cons r rows ih =>
      intro c c2 h
      rw [List.foldlM_cons] at h
      cases hr : process_log_record c r with
      | error e =>
          rw [hr] at h
          cases h
      | ok c1 =>
          rw [hr] at h
          replace h : List.foldlM process_log_record c1 rows = Except.ok c2 := h
          simp only [List.map_cons, List.foldl_cons]
          rw [← process_log_record_users c c1 r hr]
          exact ih c1 c2 h

/-- The users table after a whole log file is the upsert fold over the
user_vals of its NextSong rows. -/
theorem process_log_file_users (c c2 : Cur) (recs : List LogRecord)
    (h : process_log_file c recs = Except.ok c2) :
    c2.db.users = ((recs.filter (fun r => r.page == "NextSong")).map
      userRowOf).foldl applyUserUpsert c.db.users :=
  process_log_fold_users _ c c2 h

/-- Filtering on user_id commutes with mapping a per-row function that
preserves user_id. -/
theorem filter_userid_map_comm (u : String) (f : UserRow → UserRow)
    (hf : ∀ w, (f w).user_id = w.user_id) (us : List UserRow) :
    (us.map f).filter (fun w => w.user_id == u) =
      (us.filter (fun w => w.user_id == u)).map f := by
  induction us with
  | nil => rfl
  | cons w ws ih =>
      by_cases hw : (w.user_id == u) = true
      · simp [List.filter_cons, hf w, hw, ih]
      · simp [List.filter_cons, hf w, hw, ih]

/-- Projection of one upsert onto the rows of a fixed user_id: the
upsert acts on the projected table when the incoming row has that
user_id and leaves the projection unchanged otherwise. -/
theorem applyUserUpsert_filter (u : String) (us : List UserRow) (r : UserRow) :
    (applyUserUpsert us r).filter (fun w => w.user_id == u) =
      if (r.user_id == u) = true then
        applyUserUpsert (us.filter (fun w => w.user_id == u)) r
      else us.filter (fun w => w.user_id == u) := by
  have hupd : ∀ w : UserRow,
      ((if (w.user_id == r.user_id) = true then
        (⟨w.user_id, w.first_name, w.last_name, w.gender, r.level⟩ : UserRow)
       else w)).user_id = w.user_id := by
    intro w
    split <;> rfl
  unfold applyUserUpsert
  by_cases hin : (us.any (fun w => w.user_id == r.user_id)) = true
  · rw [if_pos hin]
    rw [filter_userid_map_comm u _ hupd]
    by_cases hru : (r.user_id == u) = true
    · rw [if_pos hru]
      have hru2 : r.user_id = u := by simpa using hru
      have hin2 : ((us.filter (fun w => w.user_id == u)).any
          (fun w => w.user_id == r.user_id)) = true := by
        simp only [List.any_eq_true, beq_iff_eq] at hin ⊢
        obtain ⟨w, hw, hwid⟩ := hin
        exact ⟨w, List.mem_filter.mpr ⟨hw, by simp [hwid, hru2]⟩, hwid⟩
      rw [if_pos hin2]
    · rw [if_neg hru]
      have : ∀ w ∈ us.filter (fun w => w.user_id == u),
          (if (w.user_id == r.user_id) = true then
            (⟨w.user_id, w.first_name, w.last_name, w.gender, r.level⟩ : UserRow)
           else w) = w := by
        intro w hw
        have hwu : w.user_id = u := by simpa using List.of_mem_filter hw
        rw [if_neg]
        simp only [beq_iff_eq, hwu]
        intro he
        exact hru (by simp [he])
      rw [List.map_congr_left this, List.map_id']
  · rw [if_neg hin]
    rw [List.filter_append]
    by_cases hru : (r.user_id == u) = true
    · rw [if_pos hru]
      have hfr : [r].filter (fun w => w.user_id == u) = [r] := by
        simp [List.filter_cons, hru]
      rw [hfr]
      have hf : (us.any (fun w => w.user_id == r.user_id)) = false :=
        Bool.eq_false_iff.mpr hin
      have hin2 : ((us.filter (fun w => w.user_id == u)).any
          (fun w => w.user_id == r.user_id)) = false := by
        rw [List.any_eq_false]
        intro w hw
        exact List.any_eq_false.mp hf w (List.mem_of_mem_filter hw)
      rw [if_neg (by simp [hin2])]
    · rw [if_neg hru]
      have hfr : [r].filter (fun w => w.user_id == u) = [] := by
        simp [List.filter_cons, hru]
      rw [hfr, List.append_nil]

/-- Projection of the whole upsert fold onto the rows of a fixed
user_id. -/
theorem foldl_upsert_filter (u : String) (rows : List UserRow) :
    ∀ us : List UserRow,
      (rows.foldl applyUserUpsert us).filter (fun w => w.user_id == u) =
        (rows.filter (fun w => w.user_id == u)).foldl applyUserUpsert
          (us.filter (fun w => w.user_id == u)) := by
  induction rows with
  | nil => intro us; rfl
  | cons r rows ih =>
      intro us
      rw [List.foldl_cons, ih (applyUserUpsert us r), applyUserUpsert_filter,
        List.filter_cons]
      by_cases hru : (r.user_id == u) = true
      · rw [if_pos hru, if_pos (by simp [hru]), List.foldl_cons]
      · rw [if_neg hru, if_neg (by simp [hru])]

/-- The upsert fold over sightings of one user, starting from the
singleton created by the first sighting: the row keeps its identity
fields and tracks the level of the latest sighting. -/
theorem foldl_upsert_singleton (u : String) (rows : List UserRow) :
    ∀ b : UserRow, b.user_id = u → (∀ w ∈ rows, w.user_id = u) →
      rows.foldl applyUserUpsert [b] =
        [⟨b.user_id, b.first_name, b.last_name, b.gender,
          (rows.getLastD b).level⟩] := by
  induction rows with
  | nil =>
      intro b hb hall
      rfl
  | cons w ws ih =>
      intro b hb hall
      have hw : w.user_id = u := hall w (List.mem_cons_self w ws)
      rw [List.foldl_cons]
      have hstep : applyUserUpsert [b] w =
          [⟨b.user_id, b.first_name, b.last_name, b.gender, w.level⟩] := by
        unfold applyUserUpsert
        rw [if_pos (by simp [hb, hw])]
        simp only [List.map_cons, List.map_nil]
        rw [if_pos (by simp [hb, hw])]
      rw [hstep]
      rw [ih ⟨b.user_id, b.first_name, b.last_name, b.gender, w.level⟩ hb
        (fun x hx => hall x (List.mem_cons_of_mem w hx))]
      rw [List.getLastD_cons]
      cases ws with
      | nil => rfl
      | cons x xs => rw [List.getLastD_cons, List.getLastD_cons]

/-- The upsert fold over the sightings of a user absent from the table:
the first sighting creates the row, the rest update its level. -/
theorem foldl_upsert_from_empty (u : String) (r0 : UserRow)
    (rest : List UserRow) (h0 : r0.user_id = u)
    (hall : ∀ w ∈ rest, w.user_id = u) :
    (r0 :: rest).foldl applyUserUpsert [] =
      [⟨r0.user_id, r0.first_name, r0.last_name, r0.gender,
        (rest.getLastD r0).level⟩] := by
  rw [List.foldl_cons]
  have hbase : applyUserUpsert [] r0 = [r0] := rfl
  rw [hbase]
  exact foldl_upsert_singleton u rest r0 h0 hall

/-- Taking the last user_vals commutes with building them from log
records. -/
theorem getLastD_map_userRowOf (ss : List LogRecord) : ∀ d : LogRecord,
    (ss.map userRowOf).getLastD (userRowOf d) = userRowOf (ss.getLastD d) := by
  induction ss with
  | nil => intro d; rfl
  | cons x xs ih =>
      intro d
      rw [List.map_cons, List.getLastD_cons, List.getLastD_cons, ih x]

/-- C6: last-write-wins on level only.  If a run of process_log_file
succeeds, the user u was absent from the users table, and the NextSong
sightings of u in the file are s0 followed by ss, then afterwards the
users table holds exactly one row for u: its identity fields come from
the first sighting s0 and its level from the most recently processed
sighting. -/
theorem c6_user_level_last_write_wins (c c2 : Cur) (recs : List LogRecord)
    (u : String) (s0 : LogRecord) (ss : List LogRecord)
    (hrun : process_log_file c recs = Except.ok c2)
    (hfresh : ∀ w ∈ c.db.users, w.user_id ≠ u)
    (hsight : (recs.filter (fun r => r.page == "NextSong")).filter
        (fun r => r.userId == u) = s0 :: ss) :
    c2.db.users.filter (fun w => w.user_id == u) =
      [⟨s0.userId, s0.firstName, s0.lastName, s0.gender,
        (ss.getLastD s0).level⟩] := by
  have husers := process_log_file_users c c2 recs hrun
  rw [husers, foldl_upsert_filter u]
  have hempty : c.db.users.filter (fun w => w.user_id == u) = [] := by
    rw [List.filter_eq_nil_iff]
    intro w hw
    simpa using hfresh w hw
  rw [hempty, List.filter_map]
  have hcomp : ((fun w : UserRow => w.user_id == u) ∘ userRowOf) =
      (fun r : LogRecord => r.userId == u) := rfl
  rw [hcomp, hsight, List.map_cons]
  have h0 : (userRowOf s0).user_id = u := by
    have hmem : s0 ∈ (recs.filter (fun r => r.page == "NextSong")).filter
        (fun r => r.userId == u) := by
      rw [hsight]
      exact List.mem_cons_self s0 ss
    simpa using List.of_mem_filter hmem
  have hall : ∀ w ∈ ss.map userRowOf, w.user_id = u := by
    intro w hw
    obtain ⟨x, hx, rfl⟩ := List.mem_map.mp hw
    have hx2 : x ∈ (recs.filter (fun r => r.page == "NextSong")).filter
        (fun r => r.userId == u) := by
      rw [hsight]
      exact List.mem_cons_of_mem s0 hx
    simpa using List.of_mem_filter hx2
  rw [foldl_upsert_from_empty u (userRowOf s0) (ss.map userRowOf) h0 hall,
    getLastD_map_userRowOf ss s0]
  rfl

/-- First sighting of user 7: level free. -/
def c6Rec1 : LogRecord :=
  ⟨"NextSong", 0, "7", "F", "L", "M", "free", "S", "A", "1", "9", "Loc", "UA"⟩

/-- Later sighting of user 7 in the same file: level paid. -/
def c6Rec2 : LogRecord :=
  ⟨"NextSong", 5000, "7", "F", "L", "M", "paid", "S", "A", "1", "9", "Loc", "UA"⟩

/-- C6 witness: after a file with the two sightings above, user 7 has
exactly one row and its level is the one of the later sighting. -/
theorem c6_user_level_last_write_wins_witness :
    (process_log_file ⟨emptyDB, []⟩ [c6Rec1, c6Rec2]).map
        (fun c2 => c2.db.users.filter (fun w => w.user_id == "7")) =
      Except.ok [⟨"7", "F", "L", "M", "paid"⟩] := by
  have hok : (process_log_file ⟨emptyDB, []⟩ [c6Rec1, c6Rec2]).isOk = true := by
    decide
  cases hrun : process_log_file ⟨emptyDB, []⟩ [c6Rec1, c6Rec2] with
  | error e =>
      rw [hrun] at hok
      cases hok
  | ok c2 =>
      have hc6 := c6_user_level_last_write_wins ⟨emptyDB, []⟩ c2
        [c6Rec1, c6Rec2] "7" c6Rec1 [c6Rec2] hrun (by simp [emptyDB]) (by decide)
      simp only [Except.map]
      rw [hc6]
      rfl
